import Mathlib

/-!
Verification development for two browser-side form-handling scripts of the
hackmit-registration repository:

* the S3 upload controller (the unnamed script wiring `.s3.upload.form`
  elements to the jQuery fileupload widget), and
* the admit confirmation form controller
  (`website/application/admit/static/js/confirmation.js`).

The scripts are embedded shallowly: DOM inputs become lists of name/value
pairs, jQuery helpers become the list functions they are documented to
compute, and each event handler becomes a function from its inputs to the
updated state plus the ordered list of observable actions it performs.
-/

namespace HackReg

/-- A DOM `<input>` element, reduced to the two attributes the scripts
read and write: its `name` and its current `value`. A form is a list of
inputs in document order. -/
structure Input where
  name : String
  value : String
  deriving DecidableEq, Repr

/-- The JavaScript test `s.indexOf(pat) === 0` used by the upload script:
`s` starts with `pat`. -/
def jsStartsWith (s pat : String) : Bool :=
  pat.data.isPrefixOf s.data

/-- `jQuery.grep(array, callback, invert)`: keeps the elements on which the
callback returns `true` when `invert` is `false`, and the elements on which
it returns `false` when `invert` is `true`. -/
def jGrep (arr : List α) (cb : α → Bool) (invert : Bool) : List α :=
  arr.filter (fun e => cb e != invert)

/-- `getSanitizedData(form)` from the upload script: `fullData` is every
input of the form; `publicData` keeps, via `$.grep` with `invert = true`,
the inputs whose name does NOT satisfy `name.indexOf('x-amz-meta-')===0`;
`formData` further drops, again via `$.grep` with `invert = true`, any
input named `file`. -/
def getSanitizedData (form : List Input) : List Input :=
  let fullData := form
  let publicData := jGrep fullData (fun element => jsStartsWith element.name "x-amz-meta-") true
  let formData := jGrep publicData (fun element => element.name == "file") true
  formData

/-- The sanitized-data set as the specification sentence describes it (for
comparison with `getSanitizedData`, which is translated from the source):
exactly the inputs whose names start with `x-amz-meta-`, with the input
named `file` excluded. -/
def specSanitizedData (form : List Input) : List Input :=
  form.filter (fun element => jsStartsWith element.name "x-amz-meta-" && element.name != "file")

/-- The JSON object returned by a successful GET to the policy endpoint:
three string fields copied into the hidden form inputs. -/
structure PolicyResponse where
  key : String
  policy : String
  signature : String
  deriving DecidableEq, Repr

/-- Observable steps of the upload controller, in the order the script
performs them. -/
inductive UploadEvent where
  | getPolicy (endpointUrl : Option String)
  | fieldSet (name value : String)
  | submitUpload
  | fileInputClick
  deriving DecidableEq, Repr

/-- `form.find('input[name=n]')`: the inputs named `n`, in document order. -/
def jFindByName (form : List Input) (n : String) : List Input :=
  form.filter (fun e => e.name == n)

/-- `.val()` as a getter: the value of the first matched input, or
JavaScript `undefined` (here `none`) when the selection is empty. -/
def jVal (form : List Input) (n : String) : Option String :=
  (jFindByName form n).head?.map Input.value

/-- `.val(v)` as a setter: writes `v` into every input named `n`. -/
def jSetVal (form : List Input) (n v : String) : List Input :=
  form.map (fun e => if e.name == n then { e with value := v } else e)

/-- The `add` handler of the fileupload widget. It reads the policy
endpoint URL from the `x-amz-meta-policy_endpoint` input and issues a GET;
`getResult` is that request's outcome (`none` when it fails, so the `done`
callback never runs — the script attaches no failure callback). On
success it writes `key`, `policy` and `signature` from the response into
the equally named inputs and then calls `data.submit()`. The result is the
updated form and the ordered event trace. -/
def addHandler (form : List Input) (getResult : Option PolicyResponse) :
    List Input × List UploadEvent :=
  let policyEndpoint := jVal form "x-amz-meta-policy_endpoint"
  match getResult with
  | some params =>
      let f1 := jSetVal form "key" params.key
      let f2 := jSetVal f1 "policy" params.policy
      let f3 := jSetVal f2 "signature" params.signature
      (f3, [UploadEvent.getPolicy policyEndpoint,
            UploadEvent.fieldSet "key" params.key,
            UploadEvent.fieldSet "policy" params.policy,
            UploadEvent.fieldSet "signature" params.signature,
            UploadEvent.submitUpload])
  | none => (form, [UploadEvent.getPolicy policyEndpoint])

/-- The expected event trace of a successful `add` handling of `form` with
policy response `params`: the GET, the three field writes, then the
submit. -/
def uploadSuccessTrace (form : List Input) (params : PolicyResponse) : List UploadEvent :=
  [UploadEvent.getPolicy (jVal form "x-amz-meta-policy_endpoint"),
   UploadEvent.fieldSet "key" params.key,
   UploadEvent.fieldSet "policy" params.policy,
   UploadEvent.fieldSet "signature" params.signature,
   UploadEvent.submitUpload]

/-- The three policy inputs of `form` hold the values of `params`: every
input named `key` (resp. `policy`, `signature`) has the response's `key`
(resp. `policy`, `signature`) as its value. -/
def policyPopulated (form : List Input) (params : PolicyResponse) : Prop :=
  ∀ e ∈ form,
    (e.name = "key" → e.value = params.key) ∧
    (e.name = "policy" → e.value = params.policy) ∧
    (e.name = "signature" → e.value = params.signature)

/-- The upload button, reduced to what the script touches: its class list,
whether the click handler bound at wiring time is still attached, and its
text label. -/
structure ButtonState where
  classes : List String
  clickBound : Bool
  text : String
  deriving DecidableEq, Repr

/-- `.addClass(c)`: appends the class when it is not already present. -/
def addClass (b : ButtonState) (c : String) : ButtonState :=
  if c ∈ b.classes then b else { b with classes := b.classes ++ [c] }

/-- JavaScript `String.prototype.replace` with a string pattern replaces
only the first occurrence; this is that operation on character lists. -/
def listReplaceFirst (pat rep : List Char) : List Char → List Char
  | [] => if pat.isEmpty then rep else []
  | c :: rest =>
      if pat.isPrefixOf (c :: rest) then rep ++ (c :: rest).drop pat.length
      else c :: listReplaceFirst pat rep rest

/-- `s.replace(pat, rep)` for string `pat`: first occurrence only. -/
def jsReplaceFirst (s pat rep : String) : String :=
  ⟨listReplaceFirst pat.data rep.data s.data⟩

/-- The wiring performed per form at document-ready: `button.click(...)`
binds the handler forwarding clicks to the hidden file input, and
`button.text("Upload " + button.text())` updates the label. -/
def wireButton (b : ButtonState) : ButtonState :=
  { b with clickBound := true, text := "Upload " ++ b.text }

/-- Clicking the button: when the click handler is still bound it triggers
`form.find('input[type=file]').click()`, which opens the native file
dialog; otherwise nothing happens. -/
def buttonClickEvents (b : ButtonState) : List UploadEvent :=
  if b.clickBound then [UploadEvent.fileInputClick] else []

/-- The `done` handler of the fileupload widget:
`button.addClass('completed')`, `button.unbind('click')`, and
`button.text(button.text().replace('Upload ', '') + ' Uploaded!')`. -/
def doneHandler (b : ButtonState) : ButtonState :=
  let b1 := addClass b "completed"
  let b2 := { b1 with clickBound := false }
  { b2 with text := jsReplaceFirst b2.text "Upload " "" ++ " Uploaded!" }

/-- The six confirmation-form fields, as the string values of the inputs
`#badge`, `#phone`, `#shirt`, `#diet`, `#waiver`, `#photoRelease`. -/
structure ConfirmationFields where
  badge : String
  phone : String
  shirt : String
  diet : String
  waiver : String
  photoRelease : String
  deriving DecidableEq, Repr

/-- A JSON value, as produced by `JSON.parse` on a response body. -/
inductive JValue where
  | jnull
  | jbool (b : Bool)
  | jnum (n : Int)
  | jstr (s : String)
  | jarr (items : List JValue)
  | jobj (fields : List (String × JValue))

/-- JavaScript property access `j.k` on a parsed JSON value: the first
field named `k` of an object, JavaScript `undefined` (here `none`)
otherwise. (Access on `null` throws and is handled at the call site.) -/
def jGetField (j : JValue) (k : String) : Option JValue :=
  match j with
  | .jobj fields => (fields.find? (fun p => p.1 == k)).map Prod.snd
  | _ => none

/-- Observable steps of the confirmation form controller, in order. -/
inductive Action where
  | dimmerShow
  | dimmerHide
  | showMessage (line1 line2 : String)
  | delay (ms : Nat)
  | navigate (path : String)
  | httpRequest (method url : String) (body : List (String × String))
  | showPrompts (prompts : List String)
  | removeClassSuccess
  | addClassError
  | addFormErrors (errors : List (Option JValue))

/-- Recognizes a network request among the controller's actions. -/
def isHttpRequest : Action → Bool
  | .httpRequest _ _ _ => true
  | _ => false

/-- Recognizes a navigation (an assignment to `location.href`). -/
def isNavigate : Action → Bool
  | .navigate _ => true
  | _ => false

/-- Recognizes the display of form error messages. -/
def isAddFormErrors : Action → Bool
  | .addFormErrors _ => true
  | _ => false

/-- The validation rules installed by `$form.form({...})`: each of the
four configured fields (`badge`, `diet`, `waiver`, `photoRelease`) has one
rule of type `empty` — it fails exactly when the field is empty — with the
prompt written in the source. The list collects the prompts of the failing
rules, in configuration order; validation succeeds iff it is empty. The
fields `phone` and `shirt` have no rules. -/
def validationPrompts (f : ConfirmationFields) : List String :=
  (if f.badge = "" then ["Please enter the name you wanted printed on your badge!"] else []) ++
  (if f.diet = "" then ["Please enter a dietary restriction!"] else []) ++
  (if f.waiver = "" then ["Please enter your full legal name."] else []) ++
  (if f.photoRelease = "" then ["Please enter your full legal name."] else [])

/-- The JSON body built by `submitConfirmation` via `JSON.stringify`: the
six keys in source order, each bound to the current field value. -/
def confirmationBody (f : ConfirmationFields) : List (String × String) :=
  [("badge", f.badge), ("phone", f.phone), ("shirt", f.shirt),
   ("diet", f.diet), ("waiver", f.waiver), ("photoRelease", f.photoRelease)]

/-- `submitConfirmation()` up to the response: show the dimmer, then issue
the `$.ajax` PUT to `/admits` with the stringified body. -/
def submitConfirmation (f : ConfirmationFields) : List Action :=
  [Action.dimmerShow, Action.httpRequest "PUT" "/admits" (confirmationBody f)]

/-- A submission of the confirmation form: Semantic UI runs the configured
rules; on success it calls `onSuccess` (= `validate`, which calls
`submitConfirmation`), on failure it shows the failing rules' prompts
inline and the form stays put. -/
def formSubmitActions (f : ConfirmationFields) : List Action :=
  if validationPrompts f = [] then submitConfirmation f
  else [Action.showPrompts (validationPrompts f)]

/-- Modelled from the spec: `dimmerMessage(line1, line2, callback, ms)` is
defined elsewhere in the repository (it is called by `confirmation.js` but
not among the source files). Per the spec it shows a timed confirmation
message and then, after the fixed delay, runs the callback (which here
navigates to the dashboard). -/
def dimmerMessage (line1 line2 : String) (callback : List Action) (ms : Nat) : List Action :=
  [Action.showMessage line1 line2, Action.delay ms] ++ callback

/-- The `success` callback of the confirmation PUT: hide the dimmer, then
`dimmerMessage("Your confirmation has been saved!", "And now we wait...",
cb, 1500)` where `cb` sets `location.href = "/dashboard"`. -/
def successActions : List Action :=
  Action.dimmerHide ::
    dimmerMessage "Your confirmation has been saved!" "And now we wait..."
      [Action.navigate "/dashboard"] 1500

/-- `showError(msg)`: remove the `success` class, add the `error` class,
and `form('add errors', [msg])`. -/
def showError (msg : Option JValue) : List Action :=
  [Action.removeClassSuccess, Action.addClassError, Action.addFormErrors [msg]]

/-- The `error` callback of the confirmation PUT. `parsed` is the outcome
of `JSON.parse(error.responseText)`: `none` when the body is not valid
JSON, in which case `JSON.parse` throws inside the callback — after the
dimmer was hidden but before any message is shown. When the body parses to
`null`, the property access `.message` itself throws. Otherwise
`showError` runs on the `message` field. The boolean records whether the
callback ended with an uncaught exception. -/
def errorHandler (parsed : Option JValue) : List Action × Bool :=
  match parsed with
  | none => ([Action.dimmerHide], true)
  | some .jnull => ([Action.dimmerHide], true)
  | some j => ([Action.dimmerHide] ++ showError (jGetField j "message"), false)

/-- Recognizes the `data.submit()` step in an upload event trace. -/
def isSubmitEvent : UploadEvent → Bool
  | .submitUpload => true
  | _ => false

/-- Recognizes a hidden-field write in an upload event trace. -/
def isFieldSetEvent : UploadEvent → Bool
  | .fieldSet _ _ => true
  | _ => false

/-- A concrete upload form used to instantiate the `add`-handler theorem:
the two configuration inputs plus the three policy inputs and the file
input. -/
def sampleUploadForm : List Input :=
  [⟨"x-amz-meta-policy_endpoint", "https://policy.example"⟩,
   ⟨"x-amz-meta-bucket_url", "https://bucket.example"⟩,
   ⟨"key", ""⟩, ⟨"policy", ""⟩, ⟨"signature", ""⟩, ⟨"file", ""⟩]

/-- `$.grep` with `invert = true` keeps exactly the elements on which the
callback is false. -/
theorem jGrep_invert_true (arr : List α) (cb : α → Bool) :
    jGrep arr cb true = arr.filter (fun e => !(cb e)) := by
  have hp : (fun e => cb e != true) = fun e => !(cb e) := by
    funext e; cases cb e <;> rfl
  rw [jGrep, hp]

/-- Every element of `jSetVal form n v` comes from an element of `form`,
either rewritten to value `v` (when its name is `n`) or unchanged. -/
theorem mem_jSetVal {form : List Input} {n v : String} {e : Input}
    (h : e ∈ jSetVal form n v) :
    ∃ a ∈ form, e = if a.name == n then { a with value := v } else a := by
  simp only [jSetVal, List.mem_map] at h
  obtain ⟨a, ha, he⟩ := h
  exact ⟨a, ha, he.symm⟩

/-- After `jSetVal form n v`, an element named `n` holds value `v`. -/
theorem jSetVal_value_eq {form : List Input} {n v : String} {e : Input}
    (h : e ∈ jSetVal form n v) (hn : e.name = n) : e.value = v := by
  obtain ⟨a, -, he⟩ := mem_jSetVal h
  by_cases han : (a.name == n) = true
  · rw [if_pos han] at he
    rw [he]
  · rw [if_neg han] at he
    subst he
    exact absurd (beq_iff_eq.mpr hn) han

/-- An element of `jSetVal form n v` whose name is not `n` was already an
element of `form`. -/
theorem jSetVal_mem_of_name_ne {form : List Input} {n v : String} {e : Input}
    (h : e ∈ jSetVal form n v) (hn : e.name ≠ n) : e ∈ form := by
  obtain ⟨a, ha, he⟩ := mem_jSetVal h
  by_cases han : (a.name == n) = true
  · rw [if_pos han] at he
    rw [he] at hn
    exact absurd (beq_iff_eq.mp han) hn
  · rw [if_neg han] at he
    rw [he]
    exact ha

/-- Validation passes (no prompt is produced) exactly when the four
configured fields are non-empty. -/
theorem validationPrompts_eq_nil_iff (f : ConfirmationFields) :
    validationPrompts f = [] ↔
      (f.badge ≠ "" ∧ f.diet ≠ "" ∧ f.waiver ≠ "" ∧ f.photoRelease ≠ "") := by
  unfold validationPrompts
  by_cases h1 : f.badge = "" <;> by_cases h2 : f.diet = "" <;>
    by_cases h3 : f.waiver = "" <;> by_cases h4 : f.photoRelease = "" <;>
    simp [h1, h2, h3, h4]

/-- Claim C1 counterexample: on a form holding a configuration input named
`x-amz-meta-bucket_url`, a policy input named `key` and the file input,
`getSanitizedData` differs from the set the specification describes (the
inputs whose names start with `x-amz-meta-`, minus `file`): the code keeps
`key` and drops the `x-amz-meta-` input, not the other way around. -/
theorem sanitizedData_spec_counterexample :
    getSanitizedData
        [⟨"x-amz-meta-bucket_url", "https://bucket.example"⟩, ⟨"key", ""⟩, ⟨"file", "f"⟩] ≠
      specSanitizedData
        [⟨"x-amz-meta-bucket_url", "https://bucket.example"⟩, ⟨"key", ""⟩, ⟨"file", "f"⟩] := by
  decide

/-- Claim C1 (amended): the sanitized form data sent with the multipart
POST consists exactly of the input elements whose names do NOT start with
`x-amz-meta-`, with the input named `file` also excluded — `$.grep` is
called with `invert = true`, so the prefixed configuration inputs are the
ones removed. -/
theorem sanitizedData_keeps_only_non_meta_fields (form : List Input) :
    getSanitizedData form =
      form.filter (fun e => !(jsStartsWith e.name "x-amz-meta-") && e.name != "file") := by
  show jGrep (jGrep form (fun element => jsStartsWith element.name "x-amz-meta-") true)
      (fun element => element.name == "file") true =
    form.filter (fun e => !(jsStartsWith e.name "x-amz-meta-") && e.name != "file")
  rw [jGrep_invert_true, jGrep_invert_true, List.filter_filter]
  refine List.filter_congr (fun e _ => ?_)
  cases hp : jsStartsWith e.name "x-amz-meta-" <;> cases hf : e.name == "file" <;>
    simp [hp, hf, bne]

/-- Claim C2: whenever the `add` handler submits the upload, the policy
GET succeeded, the trace is exactly the GET followed by the three hidden
field writes followed by the submit (so the fields are written before the
submit), and in the resulting form the `key`, `policy` and `signature`
inputs hold the response's values. -/
theorem add_submits_only_after_policy_populated (form : List Input)
    (r : Option PolicyResponse)
    (h : UploadEvent.submitUpload ∈ (addHandler form r).2) :
    ∃ params, r = some params ∧
      (addHandler form r).2 = uploadSuccessTrace form params ∧
      policyPopulated (addHandler form r).1 params := by
  cases r with
  | none => simp [addHandler] at h
  | some params =>
      refine ⟨params, rfl, rfl, ?_⟩
      intro e he
      simp only [addHandler] at he
      refine ⟨?_, ?_, ?_⟩
      · intro hk
        have h2 := jSetVal_mem_of_name_ne he (by rw [hk]; decide)
        have h1 := jSetVal_mem_of_name_ne h2 (by rw [hk]; decide)
        exact jSetVal_value_eq h1 hk
      · intro hk
        have h2 := jSetVal_mem_of_name_ne he (by rw [hk]; decide)
        exact jSetVal_value_eq h2 hk
      · intro hk
        exact jSetVal_value_eq he hk

/-- Witness for C2: the `add` handler on a concrete form with a successful
policy response. -/
theorem add_submits_only_after_policy_populated_witness :
    ∃ params, (some (⟨"K", "P", "S"⟩ : PolicyResponse)) = some params ∧
      (addHandler sampleUploadForm (some ⟨"K", "P", "S"⟩)).2 =
        uploadSuccessTrace sampleUploadForm params ∧
      policyPopulated (addHandler sampleUploadForm (some ⟨"K", "P", "S"⟩)).1 params :=
  add_submits_only_after_policy_populated sampleUploadForm (some ⟨"K", "P", "S"⟩) (by decide)

/-- Claim C3: when the four validated fields are non-empty, the submission
issues exactly one network request — the PUT to `/admits` — and its JSON
body has exactly the six keys `badge`, `phone`, `shirt`, `diet`, `waiver`,
`photoRelease`, each bound to the corresponding field's current value. -/
theorem valid_confirmation_puts_exactly_once (f : ConfirmationFields)
    (h1 : f.badge ≠ "") (h2 : f.diet ≠ "") (h3 : f.waiver ≠ "") (h4 : f.photoRelease ≠ "") :
    (formSubmitActions f).filter isHttpRequest =
      [Action.httpRequest "PUT" "/admits" (confirmationBody f)] ∧
    (confirmationBody f).map Prod.fst =
      ["badge", "phone", "shirt", "diet", "waiver", "photoRelease"] ∧
    confirmationBody f =
      [("badge", f.badge), ("phone", f.phone), ("shirt", f.shirt),
       ("diet", f.diet), ("waiver", f.waiver), ("photoRelease", f.photoRelease)] := by
  have hv : validationPrompts f = [] :=
    (validationPrompts_eq_nil_iff f).mpr ⟨h1, h2, h3, h4⟩
  refine ⟨?_, rfl, rfl⟩
  simp [formSubmitActions, hv, submitConfirmation, isHttpRequest, List.filter]

/-- Witness for C3: a fully populated confirmation form. -/
theorem valid_confirmation_puts_exactly_once_witness :
    (formSubmitActions ⟨"Alice", "555-0100", "M", "none", "Alice Adams", "Alice Adams"⟩).filter
        isHttpRequest =
      [Action.httpRequest "PUT" "/admits"
        (confirmationBody ⟨"Alice", "555-0100", "M", "none", "Alice Adams", "Alice Adams"⟩)] ∧
    (confirmationBody ⟨"Alice", "555-0100", "M", "none", "Alice Adams", "Alice Adams"⟩).map
        Prod.fst =
      ["badge", "phone", "shirt", "diet", "waiver", "photoRelease"] ∧
    confirmationBody ⟨"Alice", "555-0100", "M", "none", "Alice Adams", "Alice Adams"⟩ =
      [("badge", "Alice"), ("phone", "555-0100"), ("shirt", "M"),
       ("diet", "none"), ("waiver", "Alice Adams"), ("photoRelease", "Alice Adams")] :=
  valid_confirmation_puts_exactly_once
    ⟨"Alice", "555-0100", "M", "none", "Alice Adams", "Alice Adams"⟩
    (by decide) (by decide) (by decide) (by decide)

/-- Claim C4: when any of the four required fields is empty, the
submission performs only the inline prompt display — no network request
and no navigation — and the prompt configured for each empty field is
among the prompts shown. -/
theorem empty_required_field_blocks_request (f : ConfirmationFields)
    (h : f.badge = "" ∨ f.diet = "" ∨ f.waiver = "" ∨ f.photoRelease = "") :
    formSubmitActions f = [Action.showPrompts (validationPrompts f)] ∧
    (formSubmitActions f).filter isHttpRequest = [] ∧
    (formSubmitActions f).filter isNavigate = [] ∧
    (f.badge = "" →
      "Please enter the name you wanted printed on your badge!" ∈ validationPrompts f) ∧
    (f.diet = "" → "Please enter a dietary restriction!" ∈ validationPrompts f) ∧
    (f.waiver = "" → "Please enter your full legal name." ∈ validationPrompts f) ∧
    (f.photoRelease = "" → "Please enter your full legal name." ∈ validationPrompts f) := by
  have hv : validationPrompts f ≠ [] := by
    rw [Ne, validationPrompts_eq_nil_iff]
    rcases h with h | h | h | h <;> simp [h]
  have hf : formSubmitActions f = [Action.showPrompts (validationPrompts f)] := by
    simp [formSubmitActions, hv]
  refine ⟨hf, ?_, ?_, ?_, ?_, ?_, ?_⟩
  · rw [hf]; rfl
  · rw [hf]; rfl
  · intro hb; simp [validationPrompts, hb]
  · intro hd; simp [validationPrompts, hd]
  · intro hw; simp [validationPrompts, hw]
  · intro hr; simp [validationPrompts, hr]

/-- Witness for C4: a form with every field empty. -/
theorem empty_required_field_blocks_request_witness :
    formSubmitActions ⟨"", "", "", "", "", ""⟩ =
      [Action.showPrompts (validationPrompts ⟨"", "", "", "", "", ""⟩)] ∧
    (formSubmitActions ⟨"", "", "", "", "", ""⟩).filter isHttpRequest = [] ∧
    (formSubmitActions ⟨"", "", "", "", "", ""⟩).filter isNavigate = [] ∧
    ((⟨"", "", "", "", "", ""⟩ : ConfirmationFields).badge = "" →
      "Please enter the name you wanted printed on your badge!" ∈
        validationPrompts ⟨"", "", "", "", "", ""⟩) ∧
    ((⟨"", "", "", "", "", ""⟩ : ConfirmationFields).diet = "" →
      "Please enter a dietary restriction!" ∈ validationPrompts ⟨"", "", "", "", "", ""⟩) ∧
    ((⟨"", "", "", "", "", ""⟩ : ConfirmationFields).waiver = "" →
      "Please enter your full legal name." ∈ validationPrompts ⟨"", "", "", "", "", ""⟩) ∧
    ((⟨"", "", "", "", "", ""⟩ : ConfirmationFields).photoRelease = "" →
      "Please enter your full legal name." ∈ validationPrompts ⟨"", "", "", "", "", ""⟩) :=
  empty_required_field_blocks_request ⟨"", "", "", "", "", ""⟩ (Or.inl rfl)

/-- Claim C5: the success callback of the confirmation PUT hides the
dimmer as its first step, shows the confirmation message, and navigates to
`/dashboard` only after the fixed 1500 ms delay. -/
theorem put_success_hides_dimmer_and_navigates :
    successActions =
      [Action.dimmerHide,
       Action.showMessage "Your confirmation has been saved!" "And now we wait...",
       Action.delay 1500,
       Action.navigate "/dashboard"] ∧
    successActions.head? = some Action.dimmerHide :=
  ⟨rfl, rfl⟩

/-- Claim C6: on an error response whose body parses to `{"message": M}`,
the callback hides the dimmer, removes the `success` class, adds the
`error` class, adds exactly the string `M` as the form's error message,
completes without throwing, and performs no navigation. -/
theorem put_error_shows_server_message (M : String) :
    errorHandler (some (JValue.jobj [("message", JValue.jstr M)])) =
      ([Action.dimmerHide, Action.removeClassSuccess, Action.addClassError,
        Action.addFormErrors [some (JValue.jstr M)]], false) ∧
    (errorHandler (some (JValue.jobj [("message", JValue.jstr M)]))).1.filter isNavigate = [] :=
  ⟨rfl, rfl⟩

/-- Claim C7: after the `done` handler has run, clicking the button no
longer triggers the hidden file input's click (the handler was unbound),
the `completed` class is present, and the label was rewritten by removing
the first `"Upload "` and appending `" Uploaded!"`. -/
theorem done_unbinds_button_click (b : ButtonState) :
    buttonClickEvents (doneHandler b) = [] ∧
    "completed" ∈ (doneHandler b).classes ∧
    (doneHandler b).text = jsReplaceFirst b.text "Upload " "" ++ " Uploaded!" := by
  refine ⟨rfl, ?_, ?_⟩
  · by_cases h : "completed" ∈ b.classes <;> simp [doneHandler, addClass, h]
  · by_cases h : "completed" ∈ b.classes <;> simp [doneHandler, addClass, h]

/-- Claim C8: when the policy GET fails, the `add` handler's trace is just
the GET itself — the form is unchanged, nothing is submitted, no field is
written, and (having attached no failure callback) no further action of
any kind happens. -/
theorem policy_fetch_failure_is_silent (form : List Input) :
    addHandler form none =
      (form, [UploadEvent.getPolicy (jVal form "x-amz-meta-policy_endpoint")]) ∧
    (addHandler form none).2.filter isSubmitEvent = [] ∧
    (addHandler form none).2.filter isFieldSetEvent = [] :=
  ⟨rfl, rfl, rfl⟩

/-- Claim C9: when the error response body is not valid JSON,
`JSON.parse` throws inside the callback: the dimmer is hidden (it was
hidden first) but no error message is ever added to the form — the error
branch is partial. -/
theorem error_handler_partial_on_invalid_json :
    errorHandler none = ([Action.dimmerHide], true) ∧
    (errorHandler none).1.filter isAddFormErrors = [] :=
  ⟨rfl, rfl⟩

/-- Claim C10: `phone` and `shirt` have no validation rules, so whenever
the four validated fields are non-empty the PUT is issued regardless of
`phone` and `shirt`; when those fields are empty, the body carries the
empty string under their keys. -/
theorem phone_shirt_sent_without_validation (f : ConfirmationFields)
    (h1 : f.badge ≠ "") (h2 : f.diet ≠ "") (h3 : f.waiver ≠ "") (h4 : f.photoRelease ≠ "") :
    Action.httpRequest "PUT" "/admits" (confirmationBody f) ∈ formSubmitActions f ∧
    (f.phone = "" → ("phone", "") ∈ confirmationBody f) ∧
    (f.shirt = "" → ("shirt", "") ∈ confirmationBody f) := by
  have hv : validationPrompts f = [] :=
    (validationPrompts_eq_nil_iff f).mpr ⟨h1, h2, h3, h4⟩
  refine ⟨?_, ?_, ?_⟩
  · simp [formSubmitActions, hv, submitConfirmation]
  · intro hp; simp [confirmationBody, hp]
  · intro hs; simp [confirmationBody, hs]

/-- Witness for C10: a form whose validated fields are populated while
`phone` and `shirt` are empty. -/
theorem phone_shirt_sent_without_validation_witness :
    Action.httpRequest "PUT" "/admits"
        (confirmationBody ⟨"Alice", "", "", "none", "Alice Adams", "Alice Adams"⟩) ∈
      formSubmitActions ⟨"Alice", "", "", "none", "Alice Adams", "Alice Adams"⟩ ∧
    ((⟨"Alice", "", "", "none", "Alice Adams", "Alice Adams"⟩ : ConfirmationFields).phone = "" →
      ("phone", "") ∈ confirmationBody ⟨"Alice", "", "", "none", "Alice Adams", "Alice Adams"⟩) ∧
    ((⟨"Alice", "", "", "none", "Alice Adams", "Alice Adams"⟩ : ConfirmationFields).shirt = "" →
      ("shirt", "") ∈ confirmationBody ⟨"Alice", "", "", "none", "Alice Adams", "Alice Adams"⟩) :=
  phone_shirt_sent_without_validation ⟨"Alice", "", "", "none", "Alice Adams", "Alice Adams"⟩
    (by decide) (by decide) (by decide) (by decide)

end HackReg
